import Mathlib

/-!
Verification of `annual_engine.py` (annual-leave calculator).

Shallow embedding of `src/annual-leave-calculator/annual_engine.py`.

Modelling conventions:
* Python floats are modelled as rationals (`ℚ`); `inf`/`nan` are outside the
  model.  Python ints are `ℤ`.
* Python `//` (floor division) is `Int.fdiv`; `int(x)` on a float is
  truncation toward zero (`pyTrunc`); builtin `round` is round-half-to-even
  (`pyRound`).
* Python strings are modelled as `String` / `List Char`; the string helpers
  (`strip`, `split`, `in`, `float(...)`) are re-implemented on `List Char`
  (`pyStrip`, `pySplit`, `pyContains`, `pyFloat`).  `float(...)` is modelled
  for the numeric literal forms (optional sign, digits, decimal point,
  exponent); underscored digits and the `inf`/`nan` words are out of scope.
* Python dicts holding fixed keys become structures whose field defaults are
  the `dict.get` defaults used by the source.
* Dynamic-typing faults (operations on non-numeric values) are modelled where
  the error-handling policy is at stake by a small value universe `PyVal` and
  `Except`-returning variants of the affected functions.
* The human-readable `description` / display strings in the source are
  f-strings; their numeric interpolations are presentation-only and are
  abstracted (the fixed text is kept, interpolated numbers are recorded as
  separate structure fields where a claim needs them).
-/

/-! ## 0. Utilities -/

/-- Python `int(x)` for a float `x`: truncation toward zero. -/
def pyTrunc (q : ℚ) : ℤ :=
  if q < 0 then ⌈q⌉ else ⌊q⌋

/-- Python builtin `round(x)`: round half to even. -/
def pyRound (q : ℚ) : ℤ :=
  let f : ℤ := ⌊q⌋
  let r : ℚ := q - f
  if r < 1/2 then f
  else if 1/2 < r then f + 1
  else if Even f then f else f + 1

/-- Python `round(x, 1)`: round to one decimal place, half to even. -/
def pyRound1 (q : ℚ) : ℚ :=
  (pyRound (q * 10) : ℚ) / 10

/--
Function `drop_to_10won(amount)`: `(int(amount) // 10) * 10`.
The `try/except` around it can only fire on non-numeric input, which is
modelled separately by `drop_to_10won_dyn`.
-/
def drop_to_10won (amount : ℚ) : ℤ :=
  (pyTrunc amount).fdiv 10 * 10

/-! ## 3. Rule catalog -/

/-- Dataclass `RuleProfile` (the unused `base_days` field, always `None` in
the table, is omitted). -/
structure RuleProfile where
  id : String
  name : String
  rounding_step : ℤ := 10
  rounding_mode : String := "floor"
  deriving Repr, DecidableEq

/-- The `custom` entry of `RULE_PROFILES`. -/
def customProfile : RuleProfile := { id := "custom", name := "커스텀" }

/-- Dict `RULE_PROFILES`, as an insertion-ordered association list. -/
def RULE_PROFILES : List (String × RuleProfile) :=
  [ ("law_basic", { id := "law_basic", name := "법정 기본형" }),
    ("gw_school_cba", { id := "gw_school_cba", name := "학교근무자 CBA (예시)" }),
    ("gw_institute_cba", { id := "gw_institute_cba", name := "기관근무자 CBA (예시)" }),
    ("gw_wage_guideline", { id := "gw_wage_guideline", name := "통상임금 지침형 (예시)" }),
    ("custom", customProfile) ]

/-! ## 4. Entitlement evaluator -/

/-- The `svc` dict of `suggest_annual_days`; field defaults are the
`svc.get(..., 0)` defaults. -/
structure ServiceSummary where
  full_years : ℤ := 0
  attendance_rate : ℚ := 0
  full_months : ℤ := 0
  deriving Repr, DecidableEq

/-- Return value of `suggest_annual_days`: `suggested_days` (`None` in the
custom branch) and the fixed text of the `description` f-string (numeric
interpolations abstracted, see module header). -/
structure Suggestion where
  suggested_days : Option ℤ
  description : String
  deriving Repr, DecidableEq

/-- Function `suggest_annual_days(rule_id, svc)`. -/
def suggest_annual_days (rule_id : String) (svc : ServiceSummary) : Suggestion :=
  let fy := svc.full_years
  let rate := svc.attendance_rate
  let fm := svc.full_months
  -- A) 법정 기본형
  if rule_id = "law_basic" then
    if fy < 1 then
      { suggested_days := some (min fm 11), description := "법정기본형: 1년 미만 → 월개근" }
    else if rate < 80 then
      { suggested_days := some fm, description := "법정기본형: 출근율 < 80 → 월개근" }
    else
      let extra := max 0 (min 10 ((fy - 1).fdiv 2))
      { suggested_days := some (15 + extra), description := "법정기본형: 기본 15 + 가산" }
  -- B) 학교근무자 CBA
  else if rule_id = "gw_school_cba" then
    if fy < 1 then
      { suggested_days := some (min fm 11), description := "학교 CBA: 1년 미만" }
    else if 80 ≤ rate then
      { suggested_days := some 26, description := "학교 CBA: 출근율 ≥80" }
    else
      { suggested_days := some fm, description := "학교 CBA: 출근율 <80" }
  -- C) 기관근무자 CBA
  else if rule_id = "gw_institute_cba" then
    if fy < 1 then
      { suggested_days := some (min fm 11), description := "기관 CBA: 1년 미만" }
    else if 80 ≤ rate then
      { suggested_days := some 25, description := "기관 CBA: 출근율 ≥80" }
    else
      { suggested_days := some fm, description := "기관 CBA: 출근율 <80" }
  -- D) 통상임금 지침형
  else if rule_id = "gw_wage_guideline" then
    if fy < 1 then
      { suggested_days := some (min fm 11), description := "지침형: 1년 미만" }
    else
      { suggested_days := some 26, description := "지침형: 근속" }
  -- E) 커스텀 (any other rule_id falls through to here)
  else
    { suggested_days := none, description := "커스텀 모드: 직접 입력" }

/-! ## 5. Wage calculator -/

/-- The `wage` dict of `calc_daily_wage`; field defaults are the
`wage.get(...)` defaults (`wage_type` has no default: a missing key is
`None`, modelled as `none`). -/
structure WageSpec where
  wage_type : Option String := none
  wage_amount : ℚ := 0
  hours_per_day : ℚ := 8
  monthly_work_days : ℚ := 20
  deriving Repr, DecidableEq

/-- Function `calc_daily_wage(wage)`. -/
def calc_daily_wage (wage : WageSpec) : ℚ :=
  if wage.wage_type = some "hourly" then
    wage.wage_amount * wage.hours_per_day
  else if wage.wage_type = some "daily" then
    wage.wage_amount
  else if wage.wage_type = some "monthly" then
    if 0 < wage.monthly_work_days then wage.wage_amount / wage.monthly_work_days
    else 0
  else 0

/-! ## 6. Pipeline -/

/-- The `rule` sub-dict of the pipeline result. -/
structure RuleInfo where
  id : String
  name : String
  deriving Repr, DecidableEq

/-- The `payout` sub-dict of the pipeline result. -/
structure PayoutInfo where
  granted_days : ℚ
  used_days : ℚ
  unused_days : ℚ
  daily_wage_raw : ℚ
  payout_raw : ℚ
  daily_wage_rounded : ℤ
  payout_rounded : ℤ
  deriving Repr, DecidableEq

/-- The pipeline result dict. -/
structure PipelineResult where
  rule : RuleInfo
  suggestion : Suggestion
  payout : PayoutInfo
  deriving Repr, DecidableEq

/-- Function `full_pipeline(rule_id, svc, wage, granted_days, used_days)`. -/
def full_pipeline (rule_id : String) (svc : ServiceSummary) (wage : WageSpec)
    (granted_days used_days : ℚ) : PipelineResult :=
  -- 1) 규정 세트 로딩: RULE_PROFILES.get(rule_id, RULE_PROFILES["custom"])
  let profile := (RULE_PROFILES.lookup rule_id).getD customProfile
  -- 2) 연차 추천
  let suggestion := suggest_annual_days rule_id svc
  -- 3) 미사용 연차 산출
  let unused := max (granted_days - used_days) 0
  -- 4) 1일 통상임금 계산
  let daily_raw := calc_daily_wage wage
  -- 5) 미사용수당 산정
  let payout_raw := unused * daily_raw
  -- 6) 10원단위 절사 적용
  let daily_cut := drop_to_10won daily_raw
  let payout_cut := drop_to_10won payout_raw
  { rule := { id := profile.id, name := profile.name },
    suggestion := suggestion,
    payout :=
      { granted_days := granted_days,
        used_days := used_days,
        unused_days := unused,
        daily_wage_raw := daily_raw,
        payout_raw := payout_raw,
        daily_wage_rounded := daily_cut,
        payout_rounded := payout_cut } }


/-! ## 1. Duration parser (string layer) -/

/-- Python `str.strip()` on a char list (ASCII whitespace; Python also strips
some rare Unicode spaces, which no caller of this engine uses). -/
def pyStrip (l : List Char) : List Char :=
  ((l.dropWhile Char.isWhitespace).reverse.dropWhile Char.isWhitespace).reverse

/-- Fuel-driven worker for `pySplit`; the fuel (initially the length of the
list) makes the recursion structural so that concrete inputs evaluate in the
kernel.  With fuel at least the length of `l` the fuel-exhausted branch is
unreachable. -/
def pySplitGo (sep : List Char) : ℕ → List Char → List (List Char)
  | _, [] => [[]]
  | 0, l => [l]
  | fuel + 1, c :: rest =>
    if sep.isPrefixOf (c :: rest) then
      [] :: pySplitGo sep fuel (rest.drop (sep.length - 1))
    else
      match pySplitGo sep fuel rest with
      | [] => [[c]]
      | p :: ps => (c :: p) :: ps

/-- Python `txt.split(sep)` for a non-empty separator. -/
def pySplit (sep l : List Char) : List (List Char) :=
  pySplitGo sep l.length l

/-- Python `sep in txt` (for non-empty `sep` this is exactly: the split has at
least two parts, which is also how the source consumes it). -/
def pyContains (sep l : List Char) : Bool :=
  2 ≤ (pySplit sep l).length

/-- Numeric value of a digit string (most significant first). -/
def digitsVal (l : List Char) : ℕ :=
  l.foldl (fun n c => 10 * n + (c.toNat - '0'.toNat)) 0

/-- Parsed shape of a Python float literal: sign, integer digits, fraction
digits, exponent sign and exponent digits (empty exponent digits = no
exponent). -/
structure FloatRep where
  negative : Bool
  intDigits : List Char
  fracDigits : List Char
  expNegative : Bool
  expDigits : List Char
  deriving Repr, DecidableEq

/-- Mantissa part of `float(...)`: digits with an optional decimal point,
at least one digit present. -/
def pyMantissa (neg : Bool) (m : List Char) (eneg : Bool) (eds : List Char) :
    Option FloatRep :=
  match pySplit ['.'] m with
  | [i] =>
    if i ≠ [] ∧ i.all Char.isDigit then some ⟨neg, i, [], eneg, eds⟩ else none
  | [i, f] =>
    if (i ≠ [] ∨ f ≠ []) ∧ i.all Char.isDigit ∧ f.all Char.isDigit then
      some ⟨neg, i, f, eneg, eds⟩
    else none
  | _ => none

/-- Python `float(str)` for numeric literals, char-level part: strip, optional
sign, mantissa, optional exponent.  Returns the parsed shape, or `none` where
Python raises `ValueError` (the source always catches that). -/
def pyFloatRep (l : List Char) : Option FloatRep :=
  let t := pyStrip l
  let neg : Bool := t.head? = some '-'
  let u := if t.head? = some '-' ∨ t.head? = some '+' then t.tail else t
  let unorm := u.map fun c => if c = 'E' then 'e' else c
  match pySplit ['e'] unorm with
  | [m] => pyMantissa neg m false []
  | [m, ex] =>
    let eneg : Bool := ex.head? = some '-'
    let eds := if ex.head? = some '-' ∨ ex.head? = some '+' then ex.tail else ex
    if eds ≠ [] ∧ eds.all Char.isDigit then pyMantissa neg m eneg eds else none
  | _ => none

/-- Rational value denoted by a parsed float shape. -/
def FloatRep.val (r : FloatRep) : ℚ :=
  let mant : ℚ :=
    (digitsVal r.intDigits : ℚ) + (digitsVal r.fracDigits : ℚ) / (10 : ℚ) ^ r.fracDigits.length
  let ex : ℤ :=
    if r.expNegative then -(digitsVal r.expDigits : ℤ) else (digitsVal r.expDigits : ℤ)
  (if r.negative then (-1 : ℚ) else 1) * mant * (10 : ℚ) ^ ex

/-- Python `float(str)` (numeric literal forms). -/
def pyFloat (l : List Char) : Option ℚ :=
  (pyFloatRep l).map FloatRep.val

/-- The literal marker `"일"` (day). -/
def dayMark : List Char := ['일']

/-- The literal marker `"시간"` (hour). -/
def hourMark : List Char := ['시', '간']

/-- The literal marker `"분"` (minute). -/
def minMark : List Char := ['분']

/-- One `if mark in txt: try: val = float(txt.split(mark)[0]); txt =
txt.split(mark)[1] except: pass` step of `parse_duration`: returns the parsed
number (if the marker is present and its numeric text parses) and the
remaining text (unchanged when parsing failed, exactly as the exception
leaves the source's `txt` unchanged). -/
def markStep (mark txt : List Char) : Option FloatRep × List Char :=
  if pyContains mark txt then
    match pyFloatRep ((pySplit mark txt).getD 0 []) with
    | some rep => (some rep, (pySplit mark txt).getD 1 [])
    | none => (none, txt)
  else (none, txt)

/-- Result of `NiceRecord.parse_duration`. -/
structure ParsedDuration where
  days : ℚ
  hours : ℚ
  minutes : ℚ
  deriving Repr, DecidableEq

/-- Day step of `parse_duration`: parsed number, if any (the source's `days`
variable after the first `if`). -/
def dayRep (txt : List Char) : Option FloatRep :=
  (markStep dayMark txt).1

/-- Text remaining after the day step (the source's `txt` after the first
`if`). -/
def afterDay (txt : List Char) : List Char :=
  (markStep dayMark txt).2

/-- Hour step of `parse_duration`, applied to the text left by the day
step. -/
def hourRep (txt : List Char) : Option FloatRep :=
  (markStep hourMark (afterDay txt)).1

/-- Text remaining after the hour step. -/
def afterHour (txt : List Char) : List Char :=
  (markStep hourMark (afterDay txt)).2

/-- Minute step of `parse_duration` (it does not thread `txt` further). -/
def minRep (txt : List Char) : Option FloatRep :=
  (markStep minMark (afterHour txt)).1

/-- The source's `days` variable before `case2`: the parsed day number, or
the initial `0`. -/
def parsedDays (txt : List Char) : ℚ :=
  ((dayRep txt).map FloatRep.val).getD 0

/-- The source's `hours` variable before `case2`. -/
def parsedHours (txt : List Char) : ℚ :=
  ((hourRep txt).map FloatRep.val).getD 0

/-- The source's `minutes` variable before `case2`. -/
def parsedMinutes (txt : List Char) : ℚ :=
  ((minRep txt).map FloatRep.val).getD 0

/-- The source's `case2`: all three variables still zero, so try to parse the
whole *original* `duration_raw` as a bare number of days. -/
def bareNumber (raw : List Char) : ParsedDuration :=
  match pyFloatRep raw with
  | some rep => ⟨rep.val, 0, 0⟩
  | none => ⟨0, 0, 0⟩

/-- Dataclass `NiceRecord`. -/
structure NiceRecord where
  leave_type : String
  duration_raw : String
  hours_per_day : ℚ
  deriving Repr, DecidableEq, Inhabited

/-- Method `NiceRecord.parse_duration`: strip, the three marker steps in
order, then `case2` (`bareNumber`, on the *original* `duration_raw`) when all
three parsed values are still zero. -/
def parse_duration (r : NiceRecord) : ParsedDuration :=
  if pyStrip r.duration_raw.data = [] then ⟨0, 0, 0⟩
  else if parsedDays (pyStrip r.duration_raw.data) = 0
      ∧ parsedHours (pyStrip r.duration_raw.data) = 0
      ∧ parsedMinutes (pyStrip r.duration_raw.data) = 0 then
    bareNumber r.duration_raw.data
  else
    ⟨parsedDays (pyStrip r.duration_raw.data),
     parsedHours (pyStrip r.duration_raw.data),
     parsedMinutes (pyStrip r.duration_raw.data)⟩

/-- Method `NiceRecord.to_total_hours`: `days*hours_per_day + hours +
minutes/60`. -/
def to_total_hours (r : NiceRecord) : ℚ :=
  let d := parse_duration r
  d.days * r.hours_per_day + d.hours + d.minutes / 60

/-! ## 2. Record aggregator -/

/-- Sum of the groups' decimal-hour totals, in record order (the accumulation
loop of `summarize_nice_records`). -/
def groupTotal (recs : List NiceRecord) : ℚ :=
  recs.foldl (fun acc r => acc + to_total_hours r) 0

/-- Divisor `recs[0].hours_per_day` used for re-expansion.  On an empty group
Python would raise an `IndexError`; groups produced by the aggregator are
never empty, so the 0 returned here is unreachable through
`summarize_nice_records`. -/
def groupHpd (recs : List NiceRecord) : ℚ :=
  match recs with
  | [] => 0
  | r :: _ => r.hours_per_day

/-- One output entry of `summarize_nice_records`.  The display strings
`sum_d_h_m` (an f-string of `days`, `hours`, `minutes`) and
`converted_days_hours` (an f-string of `days` and `round(remain, 1)`) are
presentation-only; their numeric payload is kept as the fields `days`,
`hours`, `minutes` and `converted_remain`. -/
structure CategorySummary where
  leave_type : String
  count : ℕ
  days : ℤ
  hours : ℤ
  minutes : ℤ
  sum_hours_decimal : ℚ
  converted_remain : ℚ
  deriving Repr, DecidableEq

/-- Re-expansion of one group.  `days = int(total_hours // hpd)`: float floor
division followed by `int` of an already integral float, i.e. `⌊total/hpd⌋`
(Python raises `ZeroDivisionError` for `hpd = 0`, which the `DurationRecord`
data model excludes; the rational model returns `⌊0⌋ = 0` there).
`hours = int(remain)` truncates toward zero; `minutes = int(round(...))`
uses Python rounding (half to even). -/
def summarizeGroup (lt : String) (recs : List NiceRecord) : CategorySummary :=
  let total_hours := groupTotal recs
  let hpd := groupHpd recs
  let days : ℤ := ⌊total_hours / hpd⌋
  let remain : ℚ := total_hours - days * hpd
  let hours : ℤ := pyTrunc remain
  let minutes : ℤ := pyRound ((remain - hours) * 60)
  { leave_type := lt,
    count := recs.length,
    days := days,
    hours := hours,
    minutes := minutes,
    sum_hours_decimal := pyRound1 total_hours,
    converted_remain := pyRound1 remain }

/-- One step of the grouping loop: `grouped.setdefault(lt, []).append(r)` on
an insertion-ordered dict represented as an association list. -/
def addToGroups (acc : List (String × List NiceRecord)) (r : NiceRecord) :
    List (String × List NiceRecord) :=
  if acc.any (fun p => p.1 = r.leave_type) then
    acc.map (fun p => if p.1 = r.leave_type then (p.1, p.2 ++ [r]) else p)
  else acc ++ [(r.leave_type, [r])]

/-- The grouping loop of `summarize_nice_records`. -/
def groupRecs (records : List NiceRecord) : List (String × List NiceRecord) :=
  records.foldl addToGroups []

/-- Function `summarize_nice_records(records)`. -/
def summarize_nice_records (records : List NiceRecord) : List CategorySummary :=
  if records = [] then []
  else (groupRecs records).map fun p => summarizeGroup p.1 p.2

/-! ## 7. Dynamic-value layer for the error-handling policy -/

/-- Python numbers: `int` or `float` (the distinction matters for the
dynamic-typing behaviour of `*` and `/`). -/
inductive PyNum where
  | intv (n : ℤ)
  | floatv (q : ℚ)
  deriving Repr, DecidableEq

/-- Numeric value of a Python number. -/
def PyNum.toRat : PyNum → ℚ
  | .intv n => (n : ℚ)
  | .floatv q => q

/-- Python values a caller can put in the `wage_amount` slot: a number or a
(non-numeric) string. -/
inductive PyVal where
  | num (v : PyNum)
  | str (s : String)
  deriving Repr, DecidableEq

/-- Python exceptions relevant to this engine. -/
inductive PyExc where
  | typeError
  | valueError
  | zeroDivisionError
  deriving Repr, DecidableEq

/-- Python `*` between the two numeric kinds: `int*int` is an `int`,
anything involving a `float` is a `float`. -/
def PyNum.mul (a b : PyNum) : PyNum :=
  match a, b with
  | .intv m, .intv n => .intv (m * n)
  | _, _ => .floatv (a.toRat * b.toRat)

/-- Python `v * n` for a possibly non-numeric `v`: `str * int` is string
repetition, `str * float` raises `TypeError`. -/
def pyMulVal (v : PyVal) (n : PyNum) : Except PyExc PyVal :=
  match v, n with
  | .num a, b => .ok (.num (a.mul b))
  | .str s, .intv m => .ok (.str ⟨(List.replicate m.toNat s.data).flatten⟩)
  | .str _, .floatv _ => .error .typeError

/-- Python `v / n`: true division (always a `float`); division by zero raises
`ZeroDivisionError`, `str / anything` raises `TypeError`. -/
def pyDivVal (v : PyVal) (n : PyNum) : Except PyExc PyVal :=
  match v with
  | .num a => if n.toRat = 0 then .error .zeroDivisionError
              else .ok (.num (.floatv (a.toRat / n.toRat)))
  | .str _ => .error .typeError

/-- Python `int(str)`: strip, optional sign, non-empty digits (underscores
not modelled); anything else raises `ValueError`. -/
def pyIntOfChars (l : List Char) : Except PyExc ℤ :=
  let t := pyStrip l
  let neg : Bool := t.head? = some '-'
  let u := if t.head? = some '-' ∨ t.head? = some '+' then t.tail else t
  if u ≠ [] ∧ u.all Char.isDigit then
    .ok (if neg then -(digitsVal u : ℤ) else (digitsVal u : ℤ))
  else .error .valueError

/-- Python `int(v)` on a dynamic value. -/
def pyIntVal (v : PyVal) : Except PyExc ℤ :=
  match v with
  | .num (.intv n) => .ok n
  | .num (.floatv q) => .ok (pyTrunc q)
  | .str s => pyIntOfChars s.data

/-- Function `drop_to_10won` on a dynamic value, with the source's
`try/except` visible: a failing `int(...)` is caught and mapped to 0. -/
def drop_to_10won_dyn (v : PyVal) : ℤ :=
  match pyIntVal v with
  | .ok n => n.fdiv 10 * 10
  | .error _ => 0

/-- The `wage` dict with a dynamic `wage_amount` slot (the other two numeric
slots are kept numeric: the spec's named fault is a non-numeric wage
amount). -/
structure WageSpecDyn where
  wage_type : Option String := none
  wage_amount : PyVal := .num (.intv 0)
  hours_per_day : PyNum := .intv 8
  monthly_work_days : PyNum := .intv 20
  deriving Repr, DecidableEq

/-- Function `calc_daily_wage` over dynamic values.  The source has no
`try/except` here: a fault in the arithmetic propagates to the caller. -/
def calc_daily_wage_dyn (w : WageSpecDyn) : Except PyExc PyVal :=
  if w.wage_type = some "hourly" then
    pyMulVal w.wage_amount w.hours_per_day
  else if w.wage_type = some "daily" then
    .ok w.wage_amount
  else if w.wage_type = some "monthly" then
    if 0 < w.monthly_work_days.toRat then pyDivVal w.wage_amount w.monthly_work_days
    else .ok (.num (.intv 0))
  else .ok (.num (.intv 0))

/-- Injection of a numeric wage spec into the dynamic model. -/
def WageSpec.toDyn (w : WageSpec) : WageSpecDyn :=
  { wage_type := w.wage_type,
    wage_amount := .num (.floatv w.wage_amount),
    hours_per_day := .floatv w.hours_per_day,
    monthly_work_days := .floatv w.monthly_work_days }

/-! ## Claims -/

/-- Claim C1. For every service summary with `fullYears ≥ 0`, `attendanceRate`
in 0–100 and `fullMonths ≥ 0`, evaluating rule `"law_basic"` returns
`suggestedDays = min(fullMonths, 11)` when `fullYears < 1`;
`suggestedDays = fullMonths` (uncapped) when `fullYears ≥ 1` and
`attendanceRate < 80`; and
`suggestedDays = 15 + clamp((fullYears-1)//2, 0, 10)` (floor division) when
`fullYears ≥ 1` and `attendanceRate ≥ 80` — in particular
`{fullYears:3, fullMonths:0, attendanceRate:95}` yields 16. -/
theorem claim_C1 :
    (∀ svc : ServiceSummary,
      0 ≤ svc.full_years → 0 ≤ svc.attendance_rate → svc.attendance_rate ≤ 100 →
      0 ≤ svc.full_months →
      ((svc.full_years < 1 →
          (suggest_annual_days "law_basic" svc).suggested_days
            = some (min svc.full_months 11)) ∧
       (1 ≤ svc.full_years → svc.attendance_rate < 80 →
          (suggest_annual_days "law_basic" svc).suggested_days
            = some svc.full_months) ∧
       (1 ≤ svc.full_years → 80 ≤ svc.attendance_rate →
          (suggest_annual_days "law_basic" svc).suggested_days
            = some (15 + max 0 (min ((svc.full_years - 1).fdiv 2) 10))))) ∧
    (suggest_annual_days "law_basic"
      { full_years := 3, attendance_rate := 95, full_months := 0 }).suggested_days
      = some 16 := by
  constructor
  · intro svc _ _ _ _
    refine ⟨fun hlt => ?_, fun hge hr => ?_, fun hge hr => ?_⟩
    · simp [suggest_annual_days, hlt]
    · simp [suggest_annual_days, not_lt.mpr hge, hr]
    · simp [suggest_annual_days, not_lt.mpr hge, not_lt.mpr hr, min_comm]
  · norm_num [suggest_annual_days, Int.fdiv]

/-- Witness for C1: the three branches at concrete inputs. -/
theorem claim_C1_witness :
    (suggest_annual_days "law_basic"
      { full_years := 0, attendance_rate := 90, full_months := 5 }).suggested_days
      = some (min 5 11) ∧
    (suggest_annual_days "law_basic"
      { full_years := 2, attendance_rate := 50, full_months := 7 }).suggested_days
      = some 7 ∧
    (suggest_annual_days "law_basic"
      { full_years := 3, attendance_rate := 95, full_months := 0 }).suggested_days
      = some (15 + max 0 (min ((3 - 1 : ℤ).fdiv 2) 10)) := by
  refine ⟨?_, ?_, ?_⟩
  · exact (claim_C1.1 { full_years := 0, attendance_rate := 90, full_months := 5 }
      (by norm_num) (by norm_num) (by norm_num) (by norm_num)).1 (by norm_num)
  · exact (claim_C1.1 { full_years := 2, attendance_rate := 50, full_months := 7 }
      (by norm_num) (by norm_num) (by norm_num) (by norm_num)).2.1
      (by norm_num) (by norm_num)
  · exact (claim_C1.1 { full_years := 3, attendance_rate := 95, full_months := 0 }
      (by norm_num) (by norm_num) (by norm_num) (by norm_num)).2.2
      (by norm_num) (by norm_num)

/-- Claim C2. For every `grantedDays` and `usedDays`, the pipeline's payout
satisfies `unusedDays = max(grantedDays - usedDays, 0)`, so `unusedDays ≥ 0`
always, `unusedDays = 0` whenever `usedDays ≥ grantedDays`, and
`payoutRaw = unusedDays * dailyWage`. -/
theorem claim_C2 :
    ∀ (rule_id : String) (svc : ServiceSummary) (wage : WageSpec) (g u : ℚ),
      (full_pipeline rule_id svc wage g u).payout.unused_days = max (g - u) 0 ∧
      0 ≤ (full_pipeline rule_id svc wage g u).payout.unused_days ∧
      (g ≤ u → (full_pipeline rule_id svc wage g u).payout.unused_days = 0) ∧
      (full_pipeline rule_id svc wage g u).payout.payout_raw
        = (full_pipeline rule_id svc wage g u).payout.unused_days
          * (full_pipeline rule_id svc wage g u).payout.daily_wage_raw := by
  intro rule_id svc wage g u
  refine ⟨rfl, le_max_right _ _, fun hle => ?_, rfl⟩
  simp [full_pipeline, max_eq_right (sub_nonpos.mpr hle)]

/-- Witness for C2 at `granted = 2`, `used = 5`. -/
theorem claim_C2_witness :
    (full_pipeline "law_basic" {} {} 2 5).payout.unused_days = 0 :=
  (claim_C2 "law_basic" {} {} 2 5).2.2.1 (by norm_num)

/-- Claim C3. `drop_to_10won` truncates a non-negative amount to the nearest
lower multiple of 10 (a multiple of 10, at most the amount, within 10 of
it); `drop_to_10won 11111 = 11110`, `drop_to_10won 14567 = 14560`,
`drop_to_10won 0 = 0`. -/
theorem claim_C3 :
    (∀ a : ℚ, 0 ≤ a →
      (10:ℤ) ∣ drop_to_10won a ∧
      (drop_to_10won a : ℚ) ≤ a ∧
      a < drop_to_10won a + 10) ∧
    drop_to_10won 11111 = 11110 ∧ drop_to_10won 14567 = 14560 ∧
    drop_to_10won 0 = 0 := by
  refine ⟨fun a h => ?_, by decide, by decide, by decide⟩
  have htr : pyTrunc a = ⌊a⌋ := by simp [pyTrunc, not_lt.mpr h]
  have hlow : 10 * (⌊a⌋.fdiv 10) ≤ ⌊a⌋ := by
    rw [Int.fdiv_eq_ediv _ (by norm_num)]; omega
  have hhigh : ⌊a⌋ ≤ 10 * (⌊a⌋.fdiv 10) + 9 := by
    rw [Int.fdiv_eq_ediv _ (by norm_num)]; omega
  have hfl : (⌊a⌋ : ℚ) ≤ a := Int.floor_le a
  have hfu : a < ⌊a⌋ + 1 := Int.lt_floor_add_one a
  have hlowq : 10 * (⌊a⌋.fdiv 10 : ℚ) ≤ (⌊a⌋ : ℚ) := by exact_mod_cast hlow
  have hhighq : (⌊a⌋ : ℚ) ≤ 10 * (⌊a⌋.fdiv 10 : ℚ) + 9 := by exact_mod_cast hhigh
  refine ⟨⟨⌊a⌋.fdiv 10, by rw [drop_to_10won, htr]; ring⟩, ?_, ?_⟩
  · rw [drop_to_10won, htr]; push_cast; linarith
  · rw [drop_to_10won, htr]; push_cast; linarith

/-- Witness for C3 at `a = 11111`. -/
theorem claim_C3_witness :
    (10:ℤ) ∣ drop_to_10won 11111 ∧
    (drop_to_10won 11111 : ℚ) ≤ 11111 ∧ (11111 : ℚ) < drop_to_10won 11111 + 10 :=
  claim_C3.1 11111 (by norm_num)

/-- Claim C5. `calc_daily_wage` returns `wageAmount * hoursPerDay` for
`"hourly"`, `wageAmount` for `"daily"`, `wageAmount / monthlyWorkDays` for
`"monthly"` when `monthlyWorkDays > 0` and 0 otherwise, and 0 for any other
`wageType` — in particular monthly 2000000 over 20 work days gives 100000. -/
theorem claim_C5 :
    (∀ amt hpd mwd : ℚ,
      calc_daily_wage ⟨some "hourly", amt, hpd, mwd⟩ = amt * hpd) ∧
    (∀ amt hpd mwd : ℚ,
      calc_daily_wage ⟨some "daily", amt, hpd, mwd⟩ = amt) ∧
    (∀ amt hpd mwd : ℚ, 0 < mwd →
      calc_daily_wage ⟨some "monthly", amt, hpd, mwd⟩ = amt / mwd) ∧
    (∀ amt hpd mwd : ℚ, ¬ 0 < mwd →
      calc_daily_wage ⟨some "monthly", amt, hpd, mwd⟩ = 0) ∧
    (∀ t : Option String, t ≠ some "hourly" → t ≠ some "daily" → t ≠ some "monthly" →
      ∀ amt hpd mwd : ℚ,
        calc_daily_wage ⟨t, amt, hpd, mwd⟩ = 0) ∧
    calc_daily_wage ⟨some "monthly", 2000000, 8, 20⟩ = 100000 := by
  refine ⟨fun amt hpd mwd => ?_, fun amt hpd mwd => ?_, fun amt hpd mwd h => ?_,
    fun amt hpd mwd h => ?_, fun t h1 h2 h3 amt hpd mwd => ?_,
    by norm_num [calc_daily_wage]; decide⟩
  · simp [calc_daily_wage]
  · simp [calc_daily_wage]
  · simp [calc_daily_wage, h]
  · simp [calc_daily_wage, h]
  · simp [calc_daily_wage, h1, h2, h3]

/-- Witness for C5: the guarded branches at concrete inputs. -/
theorem claim_C5_witness :
    calc_daily_wage ⟨some "monthly", 100, 8, 4⟩ = 100 / 4 ∧
    calc_daily_wage ⟨some "monthly", 100, 8, 0⟩ = 0 ∧
    calc_daily_wage ⟨some "weekly", 100, 8, 4⟩ = 0 := by
  refine ⟨?_, ?_, ?_⟩
  · exact claim_C5.2.2.1 100 8 4 (by norm_num)
  · exact claim_C5.2.2.2.1 100 8 0 (by norm_num)
  · exact claim_C5.2.2.2.2.1 (some "weekly") (by decide) (by decide) (by decide) 100 8 4

/-- Claim C7. For every rule id that is not one of the five registered
identifiers, the pipeline uses the custom profile (`rule.id = "custom"`) and
the evaluator returns `suggestedDays = none`; and for rule id `"custom"` the
pipeline's `suggestedDays` is `none` for every service summary. -/
theorem claim_C7 :
    (∀ rid : String,
      rid ∉ ["law_basic", "gw_school_cba", "gw_institute_cba",
             "gw_wage_guideline", "custom"] →
      ∀ (svc : ServiceSummary) (wage : WageSpec) (g u : ℚ),
        (full_pipeline rid svc wage g u).rule.id = "custom" ∧
        (full_pipeline rid svc wage g u).suggestion.suggested_days = none) ∧
    (∀ (svc : ServiceSummary) (wage : WageSpec) (g u : ℚ),
      (full_pipeline "custom" svc wage g u).suggestion.suggested_days = none) := by
  constructor
  · intro rid h svc wage g u
    simp only [List.mem_cons, List.not_mem_nil, or_false] at h
    push_neg at h
    obtain ⟨n1, n2, n3, n4, n5⟩ := h
    constructor
    · simp [full_pipeline, RULE_PROFILES, List.lookup, customProfile,
        beq_eq_false_iff_ne.mpr n1, beq_eq_false_iff_ne.mpr n2,
        beq_eq_false_iff_ne.mpr n3, beq_eq_false_iff_ne.mpr n4,
        beq_eq_false_iff_ne.mpr n5]
    · simp [full_pipeline, suggest_annual_days, n1, n2, n3, n4]
  · intro svc wage g u
    simp [full_pipeline, suggest_annual_days]

/-- Witness for C7 at the unregistered rule id `"foo"`. -/
theorem claim_C7_witness :
    (full_pipeline "foo" {} {} 0 0).rule.id = "custom" ∧
    (full_pipeline "foo" {} {} 0 0).suggestion.suggested_days = none :=
  claim_C7.1 "foo" (by decide) {} {} 0 0

/-- Claim C10. The pipeline returns `granted_days` and `used_days` unchanged in
the payout object, regardless of rule id, service summary, or wage spec. -/
theorem claim_C10 :
    ∀ (rule_id : String) (svc : ServiceSummary) (wage : WageSpec) (g u : ℚ),
      (full_pipeline rule_id svc wage g u).payout.granted_days = g ∧
      (full_pipeline rule_id svc wage g u).payout.used_days = u :=
  fun _ _ _ _ _ => ⟨rfl, rfl⟩

/-! ### Evaluation lemmas for concrete duration strings -/

/-- Evaluation: `parse_duration` on `"1일5시간"` gives 1 day, 5 hours. -/
theorem parse_duration_eval_1d5h (lt : String) (hpd : ℚ) :
    parse_duration ⟨lt, "1일5시간", hpd⟩ = ⟨1, 5, 0⟩ := by
  have hne : ¬ pyStrip "1일5시간".data = [] := by decide
  have hd : dayRep (pyStrip "1일5시간".data) = some ⟨false, ['1'], [], false, []⟩ := by decide
  have hh : hourRep (pyStrip "1일5시간".data) = some ⟨false, ['5'], [], false, []⟩ := by decide
  have hm : minRep (pyStrip "1일5시간".data) = none := by decide
  have h0 : digitsVal ([] : List Char) = 0 := by decide
  have h1 : digitsVal ['1'] = 1 := by decide
  have h5 : digitsVal ['5'] = 5 := by decide
  have hv1 : FloatRep.val ⟨false, ['1'], [], false, []⟩ = 1 := by
    simp only [FloatRep.val, h0, h1]; norm_num
  have hv5 : FloatRep.val ⟨false, ['5'], [], false, []⟩ = 5 := by
    simp only [FloatRep.val, h0, h5]; norm_num
  unfold parse_duration
  rw [if_neg hne]
  simp only [parsedDays, parsedHours, parsedMinutes, hd, hh, hm, Option.map_some',
    Option.map_none', Option.getD_some, Option.getD_none, hv1, hv5]
  norm_num

/-- Evaluation: `parse_duration` on the bare number `"2.5"` gives 2.5 days. -/
theorem parse_duration_eval_2p5 (lt : String) (hpd : ℚ) :
    parse_duration ⟨lt, "2.5", hpd⟩ = ⟨5/2, 0, 0⟩ := by
  have hne : ¬ pyStrip "2.5".data = [] := by decide
  have hd : dayRep (pyStrip "2.5".data) = none := by decide
  have hh : hourRep (pyStrip "2.5".data) = none := by decide
  have hm : minRep (pyStrip "2.5".data) = none := by decide
  have hrep : pyFloatRep "2.5".data = some ⟨false, ['2'], ['5'], false, []⟩ := by decide
  have h0 : digitsVal ([] : List Char) = 0 := by decide
  have h2 : digitsVal ['2'] = 2 := by decide
  have h5 : digitsVal ['5'] = 5 := by decide
  have hv : FloatRep.val ⟨false, ['2'], ['5'], false, []⟩ = 5/2 := by
    simp only [FloatRep.val, h0, h2, h5]; norm_num
  unfold parse_duration
  rw [if_neg hne]
  simp only [parsedDays, parsedHours, parsedMinutes, hd, hh, hm, Option.map_none',
    Option.getD_none, bareNumber, hrep, hv]
  norm_num

/-- Evaluation: `parse_duration` on `"6시간30분"` gives 6 hours 30 minutes. -/
theorem parse_duration_eval_6h30m (lt : String) (hpd : ℚ) :
    parse_duration ⟨lt, "6시간30분", hpd⟩ = ⟨0, 6, 30⟩ := by
  have hne : ¬ pyStrip "6시간30분".data = [] := by decide
  have hd : dayRep (pyStrip "6시간30분".data) = none := by decide
  have hh : hourRep (pyStrip "6시간30분".data) = some ⟨false, ['6'], [], false, []⟩ := by
    decide
  have hm : minRep (pyStrip "6시간30분".data) = some ⟨false, ['3','0'], [], false, []⟩ := by
    decide
  have h0 : digitsVal ([] : List Char) = 0 := by decide
  have h6 : digitsVal ['6'] = 6 := by decide
  have h30 : digitsVal ['3','0'] = 30 := by decide
  have hv6 : FloatRep.val ⟨false, ['6'], [], false, []⟩ = 6 := by
    simp only [FloatRep.val, h0, h6]; norm_num
  have hv30 : FloatRep.val ⟨false, ['3','0'], [], false, []⟩ = 30 := by
    simp only [FloatRep.val, h0, h30]; norm_num
  unfold parse_duration
  rw [if_neg hne]
  simp only [parsedDays, parsedHours, parsedMinutes, hd, hh, hm, Option.map_some',
    Option.map_none', Option.getD_some, Option.getD_none, hv6, hv30]
  norm_num

/-- Evaluation: `parse_duration` on `"-3"` gives minus three days. -/
theorem parse_duration_eval_neg3 (lt : String) (hpd : ℚ) :
    parse_duration ⟨lt, "-3", hpd⟩ = ⟨-3, 0, 0⟩ := by
  have hne : ¬ pyStrip "-3".data = [] := by decide
  have hd : dayRep (pyStrip "-3".data) = none := by decide
  have hh : hourRep (pyStrip "-3".data) = none := by decide
  have hm : minRep (pyStrip "-3".data) = none := by decide
  have hrep : pyFloatRep "-3".data = some ⟨true, ['3'], [], false, []⟩ := by decide
  have h0 : digitsVal ([] : List Char) = 0 := by decide
  have h3 : digitsVal ['3'] = 3 := by decide
  have hv : FloatRep.val ⟨true, ['3'], [], false, []⟩ = -3 := by
    simp only [FloatRep.val, h0, h3]; norm_num
  unfold parse_duration
  rw [if_neg hne]
  simp only [parsedDays, parsedHours, parsedMinutes, hd, hh, hm, Option.map_none',
    Option.getD_none, bareNumber, hrep, hv]
  norm_num

/-- Claim C4. The decimal-hour conversion equals
`days*hoursPerDay + hours + minutes/60` applied to the parsed triple;
`"1일5시간"` at `hoursPerDay = 8` gives 13, and the bare number `"2.5"` at
`hoursPerDay = 8` gives 20. -/
theorem claim_C4 :
    (∀ r : NiceRecord,
      to_total_hours r
        = (parse_duration r).days * r.hours_per_day + (parse_duration r).hours
          + (parse_duration r).minutes / 60) ∧
    to_total_hours ⟨"연가", "1일5시간", 8⟩ = 13 ∧
    to_total_hours ⟨"연가", "2.5", 8⟩ = 20 := by
  refine ⟨fun r => rfl, ?_, ?_⟩
  · rw [to_total_hours, parse_duration_eval_1d5h]; norm_num
  · rw [to_total_hours, parse_duration_eval_2p5]; norm_num

/-! ### Sign and subset lemmas for the parser -/

/-- Characters of the stripped string are characters of the original. -/
theorem mem_pyStrip {c : Char} {l : List Char} (h : c ∈ pyStrip l) : c ∈ l := by
  unfold pyStrip at h
  rw [List.mem_reverse] at h
  have h1 : c ∈ (l.dropWhile Char.isWhitespace).reverse :=
    (List.dropWhile_sublist Char.isWhitespace).mem h
  rw [List.mem_reverse] at h1
  exact (List.dropWhile_sublist Char.isWhitespace).mem h1

/-- Characters of any part of a split are characters of the split string. -/
theorem pySplitGo_subset (sep : List Char) :
    ∀ (fuel : ℕ) (l p : List Char), p ∈ pySplitGo sep fuel l → ∀ {c : Char}, c ∈ p → c ∈ l := by
  intro fuel
  induction fuel with
  | zero =>
    intro l p hp c hc
    cases l with
    | nil => simp [pySplitGo] at hp; subst hp; simp at hc
    | cons a as => simp [pySplitGo] at hp; subst hp; exact hc
  | succ n ih =>
    intro l p hp c hc
    cases l with
    | nil => simp [pySplitGo] at hp; subst hp; simp at hc
    | cons a as =>
      simp only [pySplitGo] at hp
      by_cases hpre : sep.isPrefixOf (a :: as)
      · rw [if_pos hpre] at hp
        rcases List.mem_cons.mp hp with h1 | h2
        · subst h1; simp at hc
        · exact List.mem_cons_of_mem _ (List.mem_of_mem_drop (ih _ _ h2 hc))
      · rw [if_neg hpre] at hp
        rcases hrec : pySplitGo sep n as with _ | ⟨q, qs⟩
        · rw [hrec] at hp
          simp at hp; subst hp
          simp at hc; subst hc
          exact List.mem_cons_self _ _
        · rw [hrec] at hp
          rcases List.mem_cons.mp hp with h1 | h2
          · subst h1
            rcases List.mem_cons.mp hc with rfl | hcq
            · exact List.mem_cons_self _ _
            · have hq : q ∈ pySplitGo sep n as := by rw [hrec]; exact List.mem_cons_self _ _
              exact List.mem_cons_of_mem _ (ih _ _ hq hcq)
          · have hp2 : p ∈ pySplitGo sep n as := by rw [hrec]; exact List.mem_cons_of_mem _ h2
            exact List.mem_cons_of_mem _ (ih _ _ hp2 hc)

/-- Characters of the `i`-th part of a split are characters of the split
string. -/
theorem pySplit_getD_subset {sep l : List Char} (i : ℕ) {c : Char}
    (h : c ∈ (pySplit sep l).getD i []) : c ∈ l := by
  rcases hg : (pySplit sep l).get? i with _ | p
  · rw [List.getD_eq_getD_get?, hg] at h; simp at h
  · rw [List.getD_eq_getD_get?, hg] at h
    simp only [Option.getD_some] at h
    exact pySplitGo_subset sep _ _ _ (List.get?_mem hg) h

/-- The mantissa parser passes the sign through unchanged. -/
theorem pyMantissa_negative {neg : Bool} {m : List Char} {eneg : Bool} {eds : List Char}
    {rep : FloatRep} (h : pyMantissa neg m eneg eds = some rep) : rep.negative = neg := by
  unfold pyMantissa at h
  split at h
  · split at h
    · simp only [Option.some.injEq] at h; subst h; rfl
    · simp at h
  · split at h
    · simp only [Option.some.injEq] at h; subst h; rfl
    · simp at h
  · simp at h

/-- A string without a minus sign parses to a non-negative float shape. -/
theorem pyFloatRep_negative_false {l : List Char} (hl : '-' ∉ l) {rep : FloatRep}
    (h : pyFloatRep l = some rep) : rep.negative = false := by
  have ht : ¬ (pyStrip l).head? = some '-' := by
    intro hc
    exact hl (mem_pyStrip (List.mem_of_mem_head? (by simp [hc])))
  simp only [pyFloatRep] at h
  rw [decide_eq_false ht] at h
  split at h
  · exact pyMantissa_negative h
  · split at h <;> split at h <;>
      first
        | exact pyMantissa_negative h
        | simp at h
  · simp at h

/-- A non-negative float shape denotes a non-negative rational. -/
theorem FloatRep.val_nonneg {rep : FloatRep} (h : rep.negative = false) : 0 ≤ rep.val := by
  unfold FloatRep.val
  rw [h]
  simp only [Bool.false_eq_true, if_false]
  positivity

/-- A marker step on minus-free text can only produce a non-negative
shape. -/
theorem markStep_fst_negative {mark txt : List Char} (h : '-' ∉ txt) {rep : FloatRep}
    (hr : (markStep mark txt).1 = some rep) : rep.negative = false := by
  unfold markStep at hr
  split at hr
  · split at hr
    · rename_i rep' heq
      simp only at hr
      injection hr with hr
      subst hr
      exact pyFloatRep_negative_false (fun hc => h (pySplit_getD_subset 0 hc)) heq
    · simp at hr
  · simp at hr

/-- The text a marker step leaves behind is made of characters of its
input. -/
theorem markStep_snd_subset {mark txt : List Char} {c : Char}
    (h : c ∈ (markStep mark txt).2) : c ∈ txt := by
  unfold markStep at h
  split at h
  · split at h
    · exact pySplit_getD_subset 1 h
    · exact h
  · exact h

/-- Helper: a defaulted optional value is non-negative when every shape the
option can hold is non-negative. -/
theorem getD_map_val_nonneg {o : Option FloatRep}
    (h : ∀ rep, o = some rep → rep.negative = false) :
    0 ≤ (o.map FloatRep.val).getD 0 := by
  cases o with
  | none => simp
  | some rep => simpa using FloatRep.val_nonneg (h rep rfl)

/-- On minus-free text the parsed day value is non-negative. -/
theorem parsedDays_nonneg {txt : List Char} (h : '-' ∉ txt) : 0 ≤ parsedDays txt :=
  getD_map_val_nonneg fun _ hrep => markStep_fst_negative h hrep

/-- On minus-free text the parsed hour value is non-negative. -/
theorem parsedHours_nonneg {txt : List Char} (h : '-' ∉ txt) : 0 ≤ parsedHours txt :=
  getD_map_val_nonneg fun _ hrep =>
    markStep_fst_negative (fun hc => h (markStep_snd_subset hc)) hrep

/-- On minus-free text the parsed minute value is non-negative. -/
theorem parsedMinutes_nonneg {txt : List Char} (h : '-' ∉ txt) : 0 ≤ parsedMinutes txt :=
  getD_map_val_nonneg fun _ hrep =>
    markStep_fst_negative
      (fun hc => h (markStep_snd_subset (markStep_snd_subset hc))) hrep

/-- On a minus-free input every component of the parsed triple is
non-negative. -/
theorem parse_duration_nonneg (lt dur : String) (hpd : ℚ) (hminus : '-' ∉ dur.data) :
    0 ≤ (parse_duration ⟨lt, dur, hpd⟩).days ∧
    0 ≤ (parse_duration ⟨lt, dur, hpd⟩).hours ∧
    0 ≤ (parse_duration ⟨lt, dur, hpd⟩).minutes := by
  have hstrip : '-' ∉ pyStrip dur.data := fun hc => hminus (mem_pyStrip hc)
  unfold parse_duration
  split
  · exact ⟨le_refl 0, le_refl 0, le_refl 0⟩
  · split
    · unfold bareNumber
      split
      · rename_i rep hrep
        exact ⟨FloatRep.val_nonneg (pyFloatRep_negative_false hminus hrep),
          le_refl 0, le_refl 0⟩
      · exact ⟨le_refl 0, le_refl 0, le_refl 0⟩
    · dsimp only
      exact ⟨parsedDays_nonneg hstrip, parsedHours_nonneg hstrip,
        parsedMinutes_nonneg hstrip⟩

/-- Claim C9, counterexample: on the input string `"-3"` the parser returns
`days = -3 < 0`, so the triple is not always non-negative. -/
theorem claim_C9_counterexample :
    (parse_duration ⟨"병가", "-3", 8⟩).days < 0 := by
  rw [parse_duration_eval_neg3]
  norm_num

/-- Claim C9 (amended): for every input string containing no minus sign, the
triple returned by the duration parser has all three components non-negative
(each defaulting to 0). -/
theorem claim_C9 :
    ∀ (lt dur : String) (hpd : ℚ), '-' ∉ dur.data →
      0 ≤ (parse_duration ⟨lt, dur, hpd⟩).days ∧
      0 ≤ (parse_duration ⟨lt, dur, hpd⟩).hours ∧
      0 ≤ (parse_duration ⟨lt, dur, hpd⟩).minutes :=
  fun lt dur hpd h => parse_duration_nonneg lt dur hpd h

/-- Witness for C9 at the minus-free input `"1일5시간"`. -/
theorem claim_C9_witness :
    0 ≤ (parse_duration ⟨"병가", "1일5시간", 8⟩).days ∧
    0 ≤ (parse_duration ⟨"병가", "1일5시간", 8⟩).hours ∧
    0 ≤ (parse_duration ⟨"병가", "1일5시간", 8⟩).minutes :=
  claim_C9 "병가" "1일5시간" 8 (by decide)

/-- Claim C8, counterexample: a non-numeric (string) wage amount under
`wage_type = "monthly"` makes the daily-wage calculation raise `TypeError`
instead of returning a safe default — the source has no `try/except` there. -/
theorem claim_C8_counterexample :
    calc_daily_wage_dyn ⟨some "monthly", .str "abc", .intv 8, .intv 20⟩
      = .error .typeError := rfl

/-- Claim C8 (amended): the lenience policy holds for duration parsing
(a failed `float(...)` is caught: the variable keeps its 0 and the text is
unchanged) and for rounding (a failed `int(...)` is caught and mapped to 0),
and the daily-wage calculation returns a value agreeing with the pure model
on every numeric wage spec; but it is not guarded by `try/except`, so a
non-numeric wage amount propagates an exception (see the counterexample). -/
theorem claim_C8 :
    (∀ (v : PyVal) (e : PyExc), pyIntVal v = .error e → drop_to_10won_dyn v = 0) ∧
    (∀ mark txt : List Char,
      pyFloatRep ((pySplit mark txt).getD 0 []) = none → markStep mark txt = (none, txt)) ∧
    (∀ w : WageSpec, ∃ v : PyNum,
      calc_daily_wage_dyn w.toDyn = .ok (.num v) ∧ v.toRat = calc_daily_wage w) := by
  refine ⟨fun v e he => ?_, fun mark txt h => ?_, fun w => ?_⟩
  · unfold drop_to_10won_dyn
    rw [he]
  · unfold markStep
    split
    · rw [h]
    · rfl
  · rcases w with ⟨wt, amt, hpd, mwd⟩
    by_cases h1 : wt = some "hourly"
    · refine ⟨.floatv (amt * hpd), ?_, ?_⟩
      · simp [calc_daily_wage_dyn, WageSpec.toDyn, pyMulVal, PyNum.mul, PyNum.toRat, h1]
      · simp [calc_daily_wage, PyNum.toRat, h1]
    · by_cases h2 : wt = some "daily"
      · refine ⟨.floatv amt, ?_, ?_⟩
        · simp [calc_daily_wage_dyn, WageSpec.toDyn, h1, h2]
        · simp [calc_daily_wage, PyNum.toRat, h1, h2]
      · by_cases h3 : wt = some "monthly"
        · by_cases h4 : (0 : ℚ) < mwd
          · refine ⟨.floatv (amt / mwd), ?_, ?_⟩
            · simp [calc_daily_wage_dyn, WageSpec.toDyn, pyDivVal, PyNum.toRat,
                h1, h2, h3, h4, h4.ne']
            · simp [calc_daily_wage, PyNum.toRat, h1, h2, h3, h4]
          · refine ⟨.intv 0, ?_, ?_⟩
            · simp [calc_daily_wage_dyn, WageSpec.toDyn, pyDivVal, PyNum.toRat,
                h1, h2, h3, h4]
            · simp [calc_daily_wage, PyNum.toRat, h1, h2, h3, h4]
        · refine ⟨.intv 0, ?_, ?_⟩
          · simp [calc_daily_wage_dyn, WageSpec.toDyn, h1, h2, h3]
          · simp [calc_daily_wage, PyNum.toRat, h1, h2, h3]

/-- Witness for C8: the caught rounding fault on `"abc"` and the monthly
wage example. -/
theorem claim_C8_witness :
    drop_to_10won_dyn (.str "abc") = 0 ∧
    (∃ v : PyNum,
      calc_daily_wage_dyn (WageSpec.toDyn ⟨some "monthly", 2000000, 8, 20⟩)
        = .ok (.num v) ∧
      v.toRat = calc_daily_wage ⟨some "monthly", 2000000, 8, 20⟩) :=
  ⟨claim_C8.1 (.str "abc") .valueError rfl,
   claim_C8.2.2 ⟨some "monthly", 2000000, 8, 20⟩⟩

theorem summarizeGroup_leave_type (lt : String) (recs : List NiceRecord) :
    (summarizeGroup lt recs).leave_type = lt := rfl

theorem summarizeGroup_count (lt : String) (recs : List NiceRecord) :
    (summarizeGroup lt recs).count = recs.length := rfl

theorem summarizeGroup_days (lt : String) (recs : List NiceRecord) :
    (summarizeGroup lt recs).days = ⌊groupTotal recs / groupHpd recs⌋ := rfl

theorem summarizeGroup_hours (lt : String) (recs : List NiceRecord) :
    (summarizeGroup lt recs).hours
      = pyTrunc (groupTotal recs - (⌊groupTotal recs / groupHpd recs⌋ : ℚ) * groupHpd recs) := rfl

theorem summarizeGroup_minutes (lt : String) (recs : List NiceRecord) :
    (summarizeGroup lt recs).minutes
      = pyRound ((groupTotal recs - (⌊groupTotal recs / groupHpd recs⌋ : ℚ) * groupHpd recs
          - (pyTrunc (groupTotal recs - (⌊groupTotal recs / groupHpd recs⌋ : ℚ) * groupHpd recs) : ℚ)) * 60) := rfl

theorem summarizeGroup_sum_hours (lt : String) (recs : List NiceRecord) :
    (summarizeGroup lt recs).sum_hours_decimal = pyRound1 (groupTotal recs) := rfl

theorem addToGroups_inv {processed : List NiceRecord}
    {acc : List (String × List NiceRecord)}
    (h1 : ∀ p ∈ acc, p.2 = processed.filter (fun x => x.leave_type = p.1) ∧ p.2 ≠ [])
    (h2 : ∀ x ∈ processed, ∃ p ∈ acc, p.1 = x.leave_type) (r : NiceRecord) :
    (∀ p ∈ addToGroups acc r,
      p.2 = (processed ++ [r]).filter (fun x => x.leave_type = p.1) ∧ p.2 ≠ []) ∧
    (∀ x ∈ processed ++ [r], ∃ p ∈ addToGroups acc r, p.1 = x.leave_type) := by
  unfold addToGroups
  by_cases hany : acc.any (fun p => p.1 = r.leave_type) = true
  · rw [if_pos hany]
    constructor
    · intro p hp
      obtain ⟨q, hq, hqe⟩ := List.mem_map.mp hp
      obtain ⟨hq1, hq2⟩ := h1 q hq
      by_cases hk : q.1 = r.leave_type
      · rw [if_pos hk] at hqe
        subst hqe
        constructor
        · simp only [List.filter_append, ← hq1]
          simp [hk.symm]
        · simp
      · rw [if_neg hk] at hqe
        subst hqe
        constructor
        · simp only [List.filter_append, ← hq1]
          have : r.leave_type ≠ q.1 := fun hc => hk hc.symm
          simp [this]
        · exact hq2
    · intro x hx
      rcases List.mem_append.mp hx with hx | hx
      · obtain ⟨p, hp, hpk⟩ := h2 x hx
        refine ⟨if p.1 = r.leave_type then (p.1, p.2 ++ [r]) else p,
          List.mem_map_of_mem _ hp, ?_⟩
        by_cases hk : p.1 = r.leave_type
        · rw [if_pos hk]; exact hpk
        · rw [if_neg hk]; exact hpk
      · simp only [List.mem_singleton] at hx
        subst hx
        obtain ⟨p, hp, hpk⟩ := List.any_eq_true.mp hany
        refine ⟨if p.1 = x.leave_type then (p.1, p.2 ++ [x]) else p,
          List.mem_map_of_mem _ hp, ?_⟩
        have hpk' : p.1 = x.leave_type := of_decide_eq_true hpk
        rw [if_pos hpk']; exact hpk'
  · rw [if_neg hany]
    have hnone : ∀ p ∈ acc, p.1 ≠ r.leave_type := by
      intro p hp hc
      exact hany (List.any_eq_true.mpr ⟨p, hp, decide_eq_true hc⟩)
    constructor
    · intro p hp
      rcases List.mem_append.mp hp with hp | hp
      · obtain ⟨hp1, hp2⟩ := h1 p hp
        constructor
        · simp only [List.filter_append, ← hp1]
          have : r.leave_type ≠ p.1 := fun hc => hnone p hp hc.symm
          simp [this]
        · exact hp2
      · simp only [List.mem_singleton] at hp
        subst hp
        constructor
        · have hfp : processed.filter (fun x => x.leave_type = r.leave_type) = [] := by
            rw [List.filter_eq_nil_iff]
            intro x hx
            simp only [decide_eq_true_eq]
            intro hc
            obtain ⟨p, hp, hpk⟩ := h2 x hx
            exact hnone p hp (hpk.trans hc)
          simp only [List.filter_append, hfp]
          simp
        · simp
    · intro x hx
      rcases List.mem_append.mp hx with hx | hx
      · obtain ⟨p, hp, hpk⟩ := h2 x hx
        exact ⟨p, List.mem_append_left _ hp, hpk⟩
      · simp only [List.mem_singleton] at hx
        subst hx
        exact ⟨(x.leave_type, [x]), List.mem_append_right _ (List.mem_singleton_self _), rfl⟩

theorem foldl_addToGroups_inv :
    ∀ (rs processed : List NiceRecord) (acc : List (String × List NiceRecord)),
      ((∀ p ∈ acc, p.2 = processed.filter (fun x => x.leave_type = p.1) ∧ p.2 ≠ []) ∧
       (∀ x ∈ processed, ∃ p ∈ acc, p.1 = x.leave_type)) →
      (∀ p ∈ rs.foldl addToGroups acc,
        p.2 = (processed ++ rs).filter (fun x => x.leave_type = p.1) ∧ p.2 ≠ []) ∧
      (∀ x ∈ processed ++ rs, ∃ p ∈ rs.foldl addToGroups acc, p.1 = x.leave_type) := by
  intro rs
  induction rs with
  | nil => intro processed acc h; simpa using h
  | cons r rs ih =>
    intro processed acc h
    have hstep := addToGroups_inv h.1 h.2 r
    have := ih (processed ++ [r]) (addToGroups acc r) hstep
    simpa [List.append_assoc] using this

theorem groupRecs_spec (records : List NiceRecord) :
    ∀ p ∈ groupRecs records,
      p.2 = records.filter (fun x => x.leave_type = p.1) ∧ p.2 ≠ [] := by
  have h := foldl_addToGroups_inv records [] []
    ⟨by intro p hp; simp at hp, by intro x hx; simp at hx⟩
  simpa using h.1

/-- Claim C6. Every output entry of `summarize_nice_records` summarizes
exactly the records of its category (in order): the group is non-empty, the
entry is `summarizeGroup` of that group, `count` is the group size, and —
whenever the first record's `hoursPerDay` is positive — the re-expansion
satisfies `days = ⌊total/hoursPerDay⌋`, `hours = ⌊remainder⌋`,
`minutes = round((remainder - hours)*60)` (Python rounding) and
`totalHoursDecimal = round(total, 1)`.  In particular two `"sick"` records
totalling 13h and 6.5h at `hoursPerDay = 8` give one entry with total 19.5
and re-expansion 2 days, 3 hours, 30 minutes. -/
theorem claim_C6 :
    (∀ (records : List NiceRecord) (e : CategorySummary) (g : List NiceRecord),
      e ∈ summarize_nice_records records →
      g = records.filter (fun r => r.leave_type = e.leave_type) →
      g ≠ [] ∧ e = summarizeGroup e.leave_type g ∧ e.count = g.length ∧
      (0 < groupHpd g →
        e.days = ⌊groupTotal g / groupHpd g⌋ ∧
        e.hours = ⌊groupTotal g - (e.days : ℚ) * groupHpd g⌋ ∧
        e.minutes = pyRound ((groupTotal g - (e.days : ℚ) * groupHpd g - (e.hours : ℚ)) * 60) ∧
        e.sum_hours_decimal = pyRound1 (groupTotal g))) ∧
    summarize_nice_records [⟨"sick", "1일5시간", 8⟩, ⟨"sick", "6시간30분", 8⟩]
      = [⟨"sick", 2, 2, 3, 30, 39/2, 7/2⟩] := by
  constructor
  · intro records e g he hg
    unfold summarize_nice_records at he
    split at he
    · simp at he
    · obtain ⟨p, hp, rfl⟩ := List.mem_map.mp he
      obtain ⟨hfilter, hne⟩ := groupRecs_spec records p hp
      rw [summarizeGroup_leave_type, ← hfilter] at hg
      subst hg
      refine ⟨hne, by rw [summarizeGroup_leave_type], summarizeGroup_count _ _,
        fun hpos => ?_⟩
      have hremain : 0 ≤ groupTotal p.2 - (⌊groupTotal p.2 / groupHpd p.2⌋ : ℚ) * groupHpd p.2 := by
        have hfl : (⌊groupTotal p.2 / groupHpd p.2⌋ : ℚ) ≤ groupTotal p.2 / groupHpd p.2 :=
          Int.floor_le _
        have hmul := mul_le_mul_of_nonneg_right hfl hpos.le
        rw [div_mul_cancel₀ _ hpos.ne'] at hmul
        linarith
      refine ⟨?_, ?_, ?_, ?_⟩
      · rw [summarizeGroup_days]
      · rw [summarizeGroup_hours, summarizeGroup_days]
        unfold pyTrunc
        rw [if_neg (not_lt.mpr hremain)]
      · rw [summarizeGroup_minutes, summarizeGroup_days, summarizeGroup_hours]
      · rw [summarizeGroup_sum_hours]
  · have hg : groupRecs [⟨"sick", "1일5시간", 8⟩, ⟨"sick", "6시간30분", 8⟩]
        = [("sick", [⟨"sick", "1일5시간", 8⟩, ⟨"sick", "6시간30분", 8⟩])] := rfl
    have ht1 : to_total_hours ⟨"sick", "1일5시간", 8⟩ = 13 := by
      rw [to_total_hours, parse_duration_eval_1d5h]; norm_num
    have ht2 : to_total_hours ⟨"sick", "6시간30분", 8⟩ = 13/2 := by
      rw [to_total_hours, parse_duration_eval_6h30m]; norm_num
    have htot : groupTotal [⟨"sick", "1일5시간", 8⟩, ⟨"sick", "6시간30분", 8⟩] = 39/2 := by
      simp [groupTotal, ht1, ht2]
      norm_num
    have hhpd : groupHpd [⟨"sick", "1일5시간", 8⟩, ⟨"sick", "6시간30분", 8⟩] = 8 := rfl
    unfold summarize_nice_records
    rw [if_neg (by decide), hg]
    simp only [List.map_cons, List.map_nil, List.cons.injEq, and_true]
    unfold summarizeGroup
    rw [htot, hhpd]
    dsimp only
    norm_num [pyTrunc, pyRound, pyRound1, CategorySummary.mk.injEq]

/-- Witness for C6: the formulas instantiated on the two sick records. -/
theorem claim_C6_witness :
    (⟨"sick", 2, 2, 3, 30, 39/2, 7/2⟩ : CategorySummary).days
        = ⌊groupTotal [⟨"sick", "1일5시간", 8⟩, ⟨"sick", "6시간30분", 8⟩]
            / groupHpd [⟨"sick", "1일5시간", 8⟩, ⟨"sick", "6시간30분", 8⟩]⌋ ∧
    (⟨"sick", 2, 2, 3, 30, 39/2, 7/2⟩ : CategorySummary).hours
        = ⌊groupTotal [⟨"sick", "1일5시간", 8⟩, ⟨"sick", "6시간30분", 8⟩]
            - ((⟨"sick", 2, 2, 3, 30, 39/2, 7/2⟩ : CategorySummary).days : ℚ)
              * groupHpd [⟨"sick", "1일5시간", 8⟩, ⟨"sick", "6시간30분", 8⟩]⌋ ∧
    (⟨"sick", 2, 2, 3, 30, 39/2, 7/2⟩ : CategorySummary).minutes
        = pyRound ((groupTotal [⟨"sick", "1일5시간", 8⟩, ⟨"sick", "6시간30분", 8⟩]
            - ((⟨"sick", 2, 2, 3, 30, 39/2, 7/2⟩ : CategorySummary).days : ℚ)
              * groupHpd [⟨"sick", "1일5시간", 8⟩, ⟨"sick", "6시간30분", 8⟩]
            - ((⟨"sick", 2, 2, 3, 30, 39/2, 7/2⟩ : CategorySummary).hours : ℚ)) * 60) ∧
    (⟨"sick", 2, 2, 3, 30, 39/2, 7/2⟩ : CategorySummary).sum_hours_decimal
        = pyRound1 (groupTotal [⟨"sick", "1일5시간", 8⟩, ⟨"sick", "6시간30분", 8⟩]) :=
  (claim_C6.1 [⟨"sick", "1일5시간", 8⟩, ⟨"sick", "6시간30분", 8⟩]
      ⟨"sick", 2, 2, 3, 30, 39/2, 7/2⟩
      [⟨"sick", "1일5시간", 8⟩, ⟨"sick", "6시간30분", 8⟩]
      (by rw [claim_C6.2]; exact List.mem_singleton_self _)
      (by rfl)).2.2.2
    (by norm_num [groupHpd])
